import Mathlib

/-!
Verification development for the yetti host runtime and guest SDK.

Shallow embedding of:
- the host outbound HTTP backend (crates/wasi-http/src/host/default_impl.rs),
- the guest outbound HTTP call with its micro-cache (crates/wasi-http/src/guest/outgoing.rs),
- the generated messaging dispatcher (crates/guest-macro/src/messaging.rs),
- the typestate request builder (crates/warp-sdk/src/api/request.rs),
- the backend connection protocol (crates/qwasr/src/traits.rs).
-/

set_option autoImplicit false

namespace Yetti

/-! ## Header maps

`http::HeaderMap` is a multimap with case-insensitive names (header names are
stored lowercased). We model it as a list of name/value pairs and compare
names through ASCII lowercasing. -/

/-- ASCII lowercasing of a single character. -/
def lowerChar (c : Char) : Char :=
  if 65 ≤ c.toNat ∧ c.toNat ≤ 90 then Char.ofNat (c.toNat + 32) else c

/-- Case-insensitive header-name normalization, as performed by `http::HeaderName`
(header names are ASCII; they are stored lowercased). -/
def hname (s : String) : String :=
  String.mk (s.data.map lowerChar)

/-- `HeaderMap::get`-style lookup of the first value for a name (case-insensitive). -/
def lookupHeader (n : String) (hs : List (String × String)) : Option String :=
  (hs.find? fun p => hname p.1 == hname n).map Prod.snd

/-- `HeaderMap::remove`: drop every value stored under a name (case-insensitive). -/
def removeHeader (n : String) (hs : List (String × String)) : List (String × String) :=
  hs.filter fun p => hname p.1 != hname n

/-- `HeaderMap::insert`: replace all values stored under a name by a single one. -/
def insertHeader (n v : String) (hs : List (String × String)) : List (String × String) :=
  (n, v) :: removeHeader n hs

/-! ## Host outbound HTTP backend (crates/wasi-http/src/host/default_impl.rs) -/

/-- The fragment of the `wasmtime-wasi-http` `ErrorCode` enum produced by
`send_request` / `reqwest_error` / `internal_error`. -/
inductive ErrorCode where
  | ConnectionTimeout
  | ConnectionRefused
  | HttpRequestUriInvalid
  | InternalError (msg : Option String)
  deriving DecidableEq, Repr

/-- `internal_error`: wrap a displayable error message (default_impl.rs lines 112-114). -/
def internal_error (msg : String) : ErrorCode :=
  .InternalError (some msg)

/-- A `reqwest::Error` as observed by `reqwest_error`: its three classification
predicates (`is_timeout`, `is_connect`, `is_request`) and its display message. -/
structure RError where
  isTimeout : Bool
  isConnect : Bool
  isRequest : Bool
  msg : String
  deriving DecidableEq, Repr

/-- `reqwest_error` (default_impl.rs lines 117-129): classify a `reqwest::Error`
into an `ErrorCode` by the if/else chain of the source. -/
def reqwest_error (e : RError) : ErrorCode :=
  if e.isTimeout then .ConnectionTimeout
  else if e.isConnect then .ConnectionRefused
  else if e.isRequest then .HttpRequestUriInvalid
  else internal_error e.msg

/-- `FORBIDDEN_HEADERS` (default_impl.rs lines 26-36): the nine headers removed
from every upstream response. The `http` crate constants are lowercase names. -/
def FORBIDDEN_HEADERS : List String :=
  ["connection", "host", "proxy-authenticate", "proxy-authorization",
   "transfer-encoding", "upgrade", "keep-alive", "proxy-connection", "http2-settings"]

/-- The request given to `send_request`: parts plus the result of collecting the
body (`body.collect()` may fail; the failure is carried as its display message). -/
structure ModelRequest where
  method : String
  uri : String
  headers : List (String × String)
  body : Except String (List Nat)
  deriving Repr

/-- An HTTP response as a status, headers, and collected body bytes. -/
structure ModelResponse where
  status : Nat
  headers : List (String × String)
  body : List Nat
  deriving DecidableEq, Repr

/-- What `send_request` hands to the `reqwest` client: method, URI, the forwarded
header set, the collected body, and the optional TLS client identity. -/
structure SendParams (Ident : Type) where
  method : String
  uri : String
  headers : List (String × String)
  body : List Nat
  identity : Option Ident
  deriving DecidableEq, Repr

/-- The straight-line prefix of `send_request` (default_impl.rs lines 72-94 up to
`.send()`): collect the body, pull the `Client-Cert` header out of the forwarded
headers, base64-decode it and parse the PEM identity. `b64` models
`Base64::decode_vec`, `pem` models `reqwest::Identity::from_pem`; both report
failures as display messages mapped through `internal_error`. -/
def prepare {Ident : Type} (b64 : String → Except String (List Nat))
    (pem : List Nat → Except String Ident) (req : ModelRequest) :
    Except ErrorCode (SendParams Ident) :=
  match req.body with
  | .error e => .error (internal_error e)
  | .ok collected =>
    match lookupHeader "Client-Cert" req.headers with
    | some v =>
      match b64 v with
      | .error e => .error (internal_error e)
      | .ok bytes =>
        match pem bytes with
        | .error e => .error (internal_error e)
        | .ok ident =>
          .ok ⟨req.method, req.uri, removeHeader "Client-Cert" req.headers, collected, some ident⟩
    | none => .ok ⟨req.method, req.uri, req.headers, collected, none⟩

/-- The response-side header filtering of `send_request` (default_impl.rs lines
101-105): remove each forbidden header from the response header map. -/
def stripForbidden (hs : List (String × String)) : List (String × String) :=
  FORBIDDEN_HEADERS.foldl (fun acc n => removeHeader n acc) hs

/-- `send_request` (default_impl.rs lines 63-109). `clientBuild` models
`reqwest::Client::builder()...build()` given the optional identity, `send`
models issuing the upstream request; both fail with `reqwest::Error`, mapped
through `reqwest_error`. On success the forbidden headers are stripped from
the upstream response. -/
def send_request {Ident : Type} (b64 : String → Except String (List Nat))
    (pem : List Nat → Except String Ident)
    (clientBuild : Option Ident → Except RError Unit)
    (send : SendParams Ident → Except RError ModelResponse)
    (req : ModelRequest) : Except ErrorCode ModelResponse :=
  match prepare b64 pem req with
  | .error e => .error e
  | .ok p =>
    match clientBuild p.identity with
    | .error e => .error (reqwest_error e)
    | .ok _ =>
      match send p with
      | .error e => .error (reqwest_error e)
      | .ok resp => .ok { resp with headers := stripForbidden resp.headers }

/-! ## Guest outbound HTTP call with micro-cache (crates/wasi-http/src/guest/outgoing.rs)

The cache type used by `handle` lives in `crate::guest::cache`, which is not
part of the sources at hand; it is modelled from the spec (sections 4.6 and 7).
The caller in outgoing.rs is embedded faithfully. -/

/-- A KV backend failure (the storage backend of the cache failed). -/
inductive KvErr where
  | backend (msg : String)
  deriving DecidableEq, Repr

/-- Errors a guest outbound call can produce. `cache` is the error kind a KV
failure would surface as, were it ever propagated out of the cache layer. -/
inductive GuestErr where
  | directive (msg : String)
  | proxy (msg : String)
  | cache (e : KvErr)
  deriving DecidableEq, Repr

/-- The guest-side outgoing request: parts plus collected body bytes. -/
structure GReq where
  method : String
  uri : String
  headers : List (String × String)
  body : List Nat
  deriving DecidableEq, Repr

/-- Modelled from the spec: the `Cache` record of `crate::guest::cache` (absent
from the sources). It carries the request fingerprint (its `etag()`) and the
TTL in seconds taken from the `cache-control: max-age=N` directive. -/
structure Cache where
  fingerprint : String
  maxAge : Nat
  deriving DecidableEq, Repr

/-- Drop a leading pattern from a character list, or fail. -/
def stripLead : List Char → List Char → Option (List Char)
  | cs, [] => some cs
  | [], _ :: _ => none
  | c :: cs, p :: ps => if c == p then stripLead cs ps else none

/-- The numeric value of a decimal digit character. -/
def digitVal (c : Char) : Option Nat :=
  if 48 ≤ c.toNat ∧ c.toNat ≤ 57 then some (c.toNat - 48) else none

/-- Parse a non-empty all-digit character list as a decimal number. -/
def digitsToNat : List Char → Option Nat
  | [] => none
  | cs => cs.foldl (fun acc c => acc.bind fun n => (digitVal c).map fun d => n * 10 + d) (some 0)

/-- Modelled from the spec: parse a `cache-control` value of the conventional
form `max-age=N` into the TTL N. -/
def parseMaxAge (v : String) : Option Nat :=
  match stripLead v.data "max-age=".data with
  | some rest => digitsToNat rest
  | none => none

/-- Modelled from the spec: `Cache::maybe_from(&request)` — inspect the request
for a cache directive; absent means bypass (`none`), `max-age=N` yields a cache
handle whose etag is the request fingerprint `fp`; a malformed directive is the
one failure this step can report. -/
def maybeFrom (fp : GReq → String) (request : GReq) : Except GuestErr (Option Cache) :=
  match lookupHeader "cache-control" request.headers with
  | none => .ok none
  | some v =>
    match parseMaxAge v with
    | some n => .ok (some ⟨fp request, n⟩)
    | none => .error (.directive ("invalid cache directive: " ++ v))

/-- Modelled from the spec: the cache-hit marker header appended to responses
served from the cache (the spec fixes its existence, not its name). -/
def cacheHitHeader : String × String :=
  ("x-cache", "hit")

/-- Modelled from the spec: `cache.get()` — look the fingerprint up in the KV
backend; a backend failure is logged at debug level and treated as a miss, so
the outbound call continues without caching and no error escapes. A present
entry is returned with the cache-hit marker appended. -/
def cacheGet (kvGet : String → Except KvErr (Option ModelResponse)) (c : Cache) :
    Option ModelResponse :=
  match kvGet c.fingerprint with
  | .ok (some r) => some { r with headers := insertHeader cacheHitHeader.1 cacheHitHeader.2 r.headers }
  | .ok none => none
  | .error _ => none

/-- The outcome of a guest outbound call: the caller-visible result, how many
upstream fetches were issued, and the cache writes performed as
(fingerprint, response, TTL seconds) records. -/
structure GuestOutcome where
  result : Except GuestErr ModelResponse
  fetches : Nat
  writes : List (String × ModelResponse × Nat)
  deriving Repr

/-- `handle` (outgoing.rs lines 23-88): consult `Cache::maybe_from`; on a cache
hit return immediately; otherwise forward to the outbound proxy (`upstream`),
and, when a cache directive was present, insert an `etag` header equal to the
cache fingerprint and write the response to the cache with the requested TTL.
`kvPut` models the KV write, whose failure the cache layer swallows (spec:
CacheError is never surfaced); its result is evaluated and discarded. -/
def guestHandle (fp : GReq → String)
    (kvGet : String → Except KvErr (Option ModelResponse))
    (kvPut : String → ModelResponse → Nat → Except KvErr Unit)
    (upstream : GReq → Except String ModelResponse)
    (request : GReq) : GuestOutcome :=
  match maybeFrom fp request with
  | .error e => ⟨.error e, 0, []⟩
  | .ok maybeCache =>
    match maybeCache.bind (cacheGet kvGet) with
    | some hit => ⟨.ok hit, 0, []⟩
    | none =>
      match upstream request with
      | .error e => ⟨.error (.proxy e), 1, []⟩
      | .ok resp =>
        match maybeCache with
        | some c =>
          let cached := { resp with headers := insertHeader "etag" c.fingerprint resp.headers }
          let _ := kvPut c.fingerprint cached c.maxAge
          ⟨.ok cached, 1, [(c.fingerprint, cached, c.maxAge)]⟩
        | none => ⟨.ok resp, 1, []⟩

/-! ## Generated messaging dispatcher (crates/guest-macro/src/messaging.rs) -/

/-- `hay` starts with `pat`. -/
def charsHaveLead : List Char → List Char → Bool
  | _, [] => true
  | [], _ :: _ => false
  | c :: cs, p :: ps => c == p && charsHaveLead cs ps

/-- Substring containment on character lists, the semantics of Rust
`str::contains(&str)`. -/
def charsContain : List Char → List Char → Bool
  | [], ps => ps.isEmpty
  | c :: cs, ps => charsHaveLead (c :: cs) ps || charsContain cs ps

/-- `t.contains(PATTERN)` on strings. -/
def strContainsSub (t pat : String) : Bool :=
  charsContain t.data pat.data

/-- The wasi-messaging error type as used by the generated dispatcher. -/
inductive MessagingError where
  | Other (msg : String)
  deriving DecidableEq, Repr

/-- A wasi message: an optional topic and opaque payload bytes. -/
structure Message where
  topic : Option String
  data : List Nat
  deriving Repr

/-- The match arms generated by `expand_topic` (messaging.rs lines 82-89):
scan the declared (pattern, processor) pairs in order, first pattern contained
in the topic wins. -/
def findTopicArm (topic : String) :
    List (String × (List Nat → Except String Unit)) → Option (List Nat → Except String Unit)
  | [] => none
  | (p, h) :: rest => if strContainsSub topic p then some h else findTopicArm topic rest

/-- The generated `incoming_handler::Guest::handle` (messaging.rs lines 60-74):
require a topic, dispatch to the first matching arm on the payload bytes, map
the error of the arm to `Error::Other` of its display, and report an unhandled
topic as a structured error. -/
def messagingHandle (arms : List (String × (List Nat → Except String Unit)))
    (message : Message) : Except MessagingError Unit :=
  match message.topic with
  | none => .error (.Other "message is missing topic")
  | some topic =>
    match findTopicArm topic arms with
    | none => .error (.Other ("unhandled topic: " ++ topic))
    | some h => (h message.data).mapError .Other

/-! ## Typestate request builder (crates/warp-sdk/src/api/request.rs)

The Rust builder is a family of types `RequestHandler<R, O, P>` whose three
parameters range over set/unset markers. We embed it twice:
- a data model of the populated shapes reachable from `PreHandler`, giving the
  values the terminal `handle` consumes;
- a state machine whose transition guards are read off the `impl` receivers,
  capturing which operations each shape offers. -/

/-- `Context` (request.rs lines 244-253): the record handed to the business
handler at terminal await. -/
structure Context (P : Type) where
  owner : String
  provider : P
  headers : List (String × String)
  deriving DecidableEq, Repr

/-- `PreHandler` (request.rs lines 49-66): a request with nothing else set. -/
structure PreHandler (R : Type) where
  request : R
  deriving DecidableEq, Repr

/-- `RequestHandler<RequestSet, NoOwner, ProviderSet>`: request and provider
set, owner still missing. -/
structure ProvidedHandler (R P : Type) where
  request : R
  headers : List (String × String)
  provider : P
  deriving DecidableEq, Repr

/-- `RequestHandler<RequestSet, OwnerSet, ProviderSet>`: the fully populated,
awaitable shape. -/
structure FullRequestHandler (R P : Type) where
  request : R
  headers : List (String × String)
  owner : String
  provider : P
  deriving DecidableEq, Repr

/-- `PreHandler::provider` (request.rs lines 56-65): set the provider; headers
start out as `HeaderMap::default()`, the empty map. -/
def PreHandler.provider {R P : Type} (b : PreHandler R) (p : P) : ProvidedHandler R P :=
  ⟨b.request, [], p⟩

/-- `RequestHandler::owner` on the provided shape (request.rs lines 165-176). -/
def ProvidedHandler.owner {R P : Type} (b : ProvidedHandler R P) (o : String) :
    FullRequestHandler R P :=
  ⟨b.request, b.headers, o, b.provider⟩

/-- `RequestHandler::headers` (request.rs lines 181-188): replace the headers.
(Named `withHeaders` here because `headers` is the field name.) -/
def ProvidedHandler.withHeaders {R P : Type} (b : ProvidedHandler R P)
    (hs : List (String × String)) : ProvidedHandler R P :=
  { b with headers := hs }

/-- `RequestHandler::handle` (request.rs lines 193-218): build the `Context`
from the stored owner, provider, and headers and run the handler of the request
`hdl` (the `Handler::handle` implementation) on it. -/
def FullRequestHandler.handle {R P Out E : Type}
    (hdl : R → Context P → Except E Out) (b : FullRequestHandler R P) : Except E Out :=
  hdl b.request ⟨b.owner, b.provider, b.headers⟩

/-- `IntoFuture for RequestHandler` (request.rs lines 222-237): awaiting the
builder is `Box::pin(self.handle())`. -/
def FullRequestHandler.intoFuture {R P Out E : Type}
    (hdl : R → Context P → Except E Out) (b : FullRequestHandler R P) : Except E Out :=
  b.handle hdl

/-- The per-pattern processor generated by `expand_handler` (messaging.rs lines
91-108): decode the payload with `MESSAGE::handler` (`mk`, which is `try_from`
followed by `PreHandler::new`, request.rs lines 38-41), chain
`.provider(&PROVIDER::new()).owner(OWNER)`, await, and discard the reply. -/
def processor {R P Out : Type} (mk : List Nat → Except String R)
    (hdl : R → Context P → Except String Out) (prov : P) (owner : String)
    (payload : List Nat) : Except String Unit :=
  match mk payload with
  | .error e => .error e
  | .ok r => ((((PreHandler.mk r).provider prov).owner owner).handle hdl).map fun _ => ()

/-- Which of the three typestate parameters of `RequestHandler<R, O, P>` hold a
set marker (`RequestSet` / `OwnerSet` / `ProviderSet`) rather than the
corresponding unset marker. -/
structure BuilderState where
  requestSet : Bool
  ownerSet : Bool
  providerSet : Bool
  deriving DecidableEq, Repr

/-- The operations the builder API exposes. -/
inductive BuilderOp where
  | setProvider
  | setRequest
  | setOwner
  | setHeaders
  | handle
  deriving DecidableEq, Repr

/-- The transitions of the typestate builder, one constructor per `impl` block
of request.rs; each guard is the receiver type of that block.
- `provider` exists on `RequestHandler<R, O, NoProvider>` (lines 131-141),
- `request` exists on `RequestHandler<NoRequest, O, P>` (lines 146-160),
- `owner` exists on `RequestHandler<R, NoOwner, P>` (lines 165-176),
- `headers` exists on every shape (lines 181-188),
- `handle` (and `IntoFuture`) exist only on
  `RequestHandler<RequestSet, OwnerSet, ProviderSet>` (lines 193-237). -/
inductive BuilderStep : BuilderState → BuilderOp → BuilderState → Prop where
  | provider (s : BuilderState) (h : s.providerSet = false) :
      BuilderStep s .setProvider { s with providerSet := true }
  | request (s : BuilderState) (h : s.requestSet = false) :
      BuilderStep s .setRequest { s with requestSet := true }
  | owner (s : BuilderState) (h : s.ownerSet = false) :
      BuilderStep s .setOwner { s with ownerSet := true }
  | headers (s : BuilderState) : BuilderStep s .setHeaders s
  | handle : BuilderStep ⟨true, true, true⟩ .handle ⟨true, true, true⟩

/-! ## Backend protocol (crates/qwasr/src/traits.rs) -/

/-- A `Backend` implementation together with its `ConnectOptions: FromEnv`:
`from_env` models `ConnectOptions::from_env()` and `connect_with` the
connection routine of the backend. -/
structure BackendModel (Options S E : Type) where
  from_env : Except E Options
  connect_with : Options → Except E S

/-- The provided `Backend::connect` (traits.rs lines 56-58):
`connect_with(ConnectOptions::from_env()?)`. -/
def BackendModel.connect {Options S E : Type} (B : BackendModel Options S E) : Except E S :=
  match B.from_env with
  | .error e => .error e
  | .ok opts => B.connect_with opts

/-! ## Header-map lemmas -/

theorem mem_removeHeader {n : String} {hs : List (String × String)} {p : String × String}
    (h : p ∈ removeHeader n hs) : p ∈ hs ∧ hname p.1 ≠ hname n := by
  unfold removeHeader at h
  have h2 := List.mem_filter.mp h
  exact ⟨h2.1, by simpa using h2.2⟩

theorem mem_foldl_removeHeader :
    ∀ (l : List String) (hs : List (String × String)) (p : String × String),
      p ∈ l.foldl (fun acc n => removeHeader n acc) hs →
      p ∈ hs ∧ ∀ n ∈ l, hname p.1 ≠ hname n := by
  intro l
  induction l with
  | nil => intro hs p h; simpa using h
  | cons n rest ih =>
    intro hs p h
    simp only [List.foldl_cons] at h
    obtain ⟨hmem, hrest⟩ := ih _ p h
    obtain ⟨hmem2, hne⟩ := mem_removeHeader hmem
    refine ⟨hmem2, ?_⟩
    intro m hm
    rcases List.mem_cons.mp hm with rfl | hm2
    · exact hne
    · exact hrest m hm2

theorem lookupHeader_eq_none {n : String} {hs : List (String × String)}
    (h : ∀ p ∈ hs, hname p.1 ≠ hname n) : lookupHeader n hs = none := by
  unfold lookupHeader
  rw [List.find?_eq_none.mpr]
  · rfl
  · intro p hp
    simpa using h p hp

theorem mem_stripForbidden {hs : List (String × String)} {p : String × String}
    (h : p ∈ stripForbidden hs) : p ∈ hs ∧ ∀ n ∈ FORBIDDEN_HEADERS, hname p.1 ≠ hname n :=
  mem_foldl_removeHeader FORBIDDEN_HEADERS hs p h

/-- Claim C2: for every upstream response returned through the outbound
HTTP backend, each of the nine forbidden headers (connection, host,
proxy-authenticate, proxy-authorization, transfer-encoding, upgrade,
keep-alive, proxy-connection, http2-settings) is removed from the response
before it is returned. -/
theorem send_request_strips_forbidden_headers {Ident : Type}
    (b64 : String → Except String (List Nat)) (pem : List Nat → Except String Ident)
    (clientBuild : Option Ident → Except RError Unit)
    (send : SendParams Ident → Except RError ModelResponse)
    (req : ModelRequest) (resp : ModelResponse)
    (h : send_request b64 pem clientBuild send req = .ok resp) :
    ∀ n ∈ FORBIDDEN_HEADERS, lookupHeader n resp.headers = none := by
  unfold send_request at h
  split at h
  · exact absurd h (by simp)
  · split at h
    · exact absurd h (by simp)
    · split at h
      · exact absurd h (by simp)
      · injection h with h
        subst h
        intro n hn
        apply lookupHeader_eq_none
        intro q hq
        exact (mem_stripForbidden hq).2 n hn

/-- Witness for C2 at a concrete upstream response carrying a forbidden header. -/
theorem send_request_strips_forbidden_headers_witness :
    lookupHeader "connection"
      (ModelResponse.mk 200 [("x-ok", "1")] []).headers = none := by
  have h := send_request_strips_forbidden_headers
    (fun _ => .ok []) (fun (_ : List Nat) => (.ok () : Except String Unit)) (fun _ => .ok ())
    (fun _ => .ok ⟨200, [("connection", "close"), ("x-ok", "1")], []⟩)
    ⟨"GET", "http://example.com/", [], .ok []⟩
    ⟨200, [("x-ok", "1")], []⟩
    (by rfl)
  exact h "connection" (by decide)

theorem prepare_ok {Ident : Type} {b64 : String → Except String (List Nat)}
    {pem : List Nat → Except String Ident} {req : ModelRequest} {p : SendParams Ident}
    (h : prepare b64 pem req = .ok p) :
    p.method = req.method ∧ p.uri = req.uri ∧
      ((lookupHeader "Client-Cert" req.headers = none ∧ p.identity = none ∧
          p.headers = req.headers) ∨
        (∃ v bytes i, lookupHeader "Client-Cert" req.headers = some v ∧ b64 v = .ok bytes ∧
          pem bytes = .ok i ∧ p.identity = some i ∧
          p.headers = removeHeader "Client-Cert" req.headers)) := by
  unfold prepare at h
  split at h
  · exact absurd h (by simp)
  · split at h
    · split at h
      · exact absurd h (by simp)
      · split at h
        · exact absurd h (by simp)
        · injection h with h
          subst h
          rename_i a1 collected a2 v hlook a3 bytes hb64 a4 i hpem
          exact ⟨rfl, rfl, Or.inr ⟨v, bytes, i, hlook, hb64, hpem, rfl, rfl⟩⟩
    · injection h with h
      subst h
      rename_i a1 collected a2 hlook
      exact ⟨rfl, rfl, Or.inl ⟨hlook, rfl, rfl⟩⟩

theorem lookupHeader_removeHeader_self (n : String) (hs : List (String × String)) :
    lookupHeader n (removeHeader n hs) = none := by
  apply lookupHeader_eq_none
  intro p hp
  exact (mem_removeHeader hp).2

/-- Claim C10: in `send_request` of the host outbound backend, a `Client-Cert`
request header is removed from the forwarded header set before the upstream
request is issued, and its base64-decoded PEM value becomes the TLS client
identity for this request alone; without the header the client has no
identity. -/
theorem send_request_client_cert_handling {Ident : Type}
    (b64 : String → Except String (List Nat)) (pem : List Nat → Except String Ident)
    (clientBuild : Option Ident → Except RError Unit)
    (send : SendParams Ident → Except RError ModelResponse)
    (req : ModelRequest) (resp : ModelResponse)
    (h : send_request b64 pem clientBuild send req = .ok resp) :
    ∃ p r, prepare b64 pem req = .ok p ∧ send p = .ok r ∧
      lookupHeader "Client-Cert" p.headers = none ∧
      (lookupHeader "Client-Cert" req.headers = none →
        p.identity = none ∧ p.headers = req.headers) ∧
      (∀ v, lookupHeader "Client-Cert" req.headers = some v →
        ∃ bytes i, b64 v = .ok bytes ∧ pem bytes = .ok i ∧ p.identity = some i ∧
          p.headers = removeHeader "Client-Cert" req.headers) := by
  unfold send_request at h
  split at h
  · exact absurd h (by simp)
  · rename_i a0 p hp
    split at h
    · exact absurd h (by simp)
    · rename_i a1 u hc
      split at h
      · exact absurd h (by simp)
      · rename_i a2 r hs
        obtain ⟨hm, hu, hcase⟩ := prepare_ok hp
        refine ⟨p, r, hp, hs, ?_, ?_, ?_⟩
        · rcases hcase with ⟨hl, hid, hh⟩ | ⟨v, bytes, i, hlv, hb, hpm, hid, hh⟩
          · rw [hh, hl]
          · rw [hh]
            exact lookupHeader_removeHeader_self _ _
        · intro hn
          rcases hcase with ⟨hl, hid, hh⟩ | ⟨v, bytes, i, hlv, hb, hpm, hid, hh⟩
          · exact ⟨hid, hh⟩
          · rw [hlv] at hn
            exact absurd hn (by simp)
        · intro v hv
          rcases hcase with ⟨hl, hid, hh⟩ | ⟨v', bytes, i, hlv, hb, hpm, hid, hh⟩
          · rw [hl] at hv
            exact absurd hv (by simp)
          · rw [hlv] at hv
            injection hv with hv
            subst hv
            exact ⟨bytes, i, hb, hpm, hid, hh⟩

/-- Witness for C10 at a concrete request carrying a `Client-Cert` header. -/
theorem send_request_client_cert_handling_witness :
    ∃ (p : SendParams (List Nat)) (r : ModelResponse),
      prepare (fun _ => .ok [1, 2]) (fun bs => .ok bs)
        ⟨"GET", "http://example.com/", [("Client-Cert", "AQI="), ("x-a", "1")], .ok []⟩ = .ok p ∧
      (fun (_ : SendParams (List Nat)) =>
        (.ok ⟨200, [], []⟩ : Except RError ModelResponse)) p = .ok r ∧
      lookupHeader "Client-Cert" p.headers = none ∧
      (lookupHeader "Client-Cert"
          [(("Client-Cert" : String), ("AQI=" : String)), ("x-a", "1")] = none →
        p.identity = none ∧ p.headers = [("Client-Cert", "AQI="), ("x-a", "1")]) ∧
      (∀ v, lookupHeader "Client-Cert"
          [(("Client-Cert" : String), ("AQI=" : String)), ("x-a", "1")] = some v →
        ∃ bytes i, (fun (_ : String) => (.ok [1, 2] : Except String (List Nat))) v = .ok bytes ∧
          (fun (bs : List Nat) => (.ok bs : Except String (List Nat))) bytes = .ok i ∧
          p.identity = some i ∧
          p.headers = removeHeader "Client-Cert" [("Client-Cert", "AQI="), ("x-a", "1")]) :=
  send_request_client_cert_handling (fun _ => .ok [1, 2]) (fun bs => .ok bs)
    (fun _ => .ok ()) (fun _ => .ok ⟨200, [], []⟩)
    ⟨"GET", "http://example.com/", [("Client-Cert", "AQI="), ("x-a", "1")], .ok []⟩
    ⟨200, [], []⟩ (by rfl)

/-- Claim C8: a failure of the upstream request is mapped to exactly one
TransportError sub-kind of `ErrorCode`: a timeout to connection-timeout; a
connection failure (otherwise) to connection-refused; an invalid request/URI
(otherwise) to http-request-uri-invalid; and any other failure to
internal-error carrying the error message. The last conjunct grounds the
mapping in `send_request`: a failing upstream send surfaces exactly as
`reqwest_error` of that failure. -/
theorem reqwest_error_classification (e : RError) :
    (e.isTimeout = true → reqwest_error e = .ConnectionTimeout) ∧
    (e.isTimeout = false → e.isConnect = true → reqwest_error e = .ConnectionRefused) ∧
    (e.isTimeout = false → e.isConnect = false → e.isRequest = true →
      reqwest_error e = .HttpRequestUriInvalid) ∧
    (e.isTimeout = false → e.isConnect = false → e.isRequest = false →
      reqwest_error e = .InternalError (some e.msg)) ∧
    (reqwest_error e = .ConnectionTimeout ∨ reqwest_error e = .ConnectionRefused ∨
      reqwest_error e = .HttpRequestUriInvalid ∨
      reqwest_error e = .InternalError (some e.msg)) ∧
    (∀ (Ident : Type) (b64 : String → Except String (List Nat))
        (pem : List Nat → Except String Ident)
        (clientBuild : Option Ident → Except RError Unit)
        (send : SendParams Ident → Except RError ModelResponse)
        (req : ModelRequest) (p : SendParams Ident),
      prepare b64 pem req = .ok p → clientBuild p.identity = .ok () →
      send p = .error e →
      send_request b64 pem clientBuild send req = .error (reqwest_error e)) := by
  refine ⟨?_, ?_, ?_, ?_, ?_, ?_⟩
  · intro h1
    simp [reqwest_error, h1]
  · intro h1 h2
    simp [reqwest_error, h1, h2]
  · intro h1 h2 h3
    simp [reqwest_error, h1, h2, h3]
  · intro h1 h2 h3
    simp [reqwest_error, internal_error, h1, h2, h3]
  · unfold reqwest_error internal_error
    split
    · exact Or.inl rfl
    · split
      · exact Or.inr (Or.inl rfl)
      · split
        · exact Or.inr (Or.inr (Or.inl rfl))
        · exact Or.inr (Or.inr (Or.inr rfl))
  · intro Ident b64 pem clientBuild send req p hp hc hs
    unfold send_request
    simp [hp, hc, hs]

/-- Witness for C8 at concrete `reqwest` errors of each class. -/
theorem reqwest_error_classification_witness :
    reqwest_error ⟨true, false, false, "t"⟩ = .ConnectionTimeout ∧
    reqwest_error ⟨false, true, false, "c"⟩ = .ConnectionRefused ∧
    reqwest_error ⟨false, false, true, "r"⟩ = .HttpRequestUriInvalid ∧
    reqwest_error ⟨false, false, false, "o"⟩ = .InternalError (some "o") :=
  ⟨(reqwest_error_classification ⟨true, false, false, "t"⟩).1 rfl,
   (reqwest_error_classification ⟨false, true, false, "c"⟩).2.1 rfl rfl,
   (reqwest_error_classification ⟨false, false, true, "r"⟩).2.2.1 rfl rfl rfl,
   (reqwest_error_classification ⟨false, false, false, "o"⟩).2.2.2.1 rfl rfl rfl⟩

/-- Claim C9: the provided `Backend::connect` equals
`connect_with(Options::from_env())`: it loads the options from the environment
and connects with exactly those options, failing whenever `from_env` fails. -/
theorem backend_connect_eq (Options S E : Type) (B : BackendModel Options S E) :
    B.connect = B.from_env.bind B.connect_with ∧
    (∀ e, B.from_env = .error e → B.connect = .error e) ∧
    (∀ o, B.from_env = .ok o → B.connect = B.connect_with o) := by
  refine ⟨?_, ?_, ?_⟩
  · unfold BackendModel.connect
    cases hfe : B.from_env with
    | error e => simp [Except.bind]
    | ok o => simp [Except.bind]
  · intro e hfe
    unfold BackendModel.connect
    rw [hfe]
  · intro o hfe
    unfold BackendModel.connect
    rw [hfe]

/-- Witness for C9 at a concrete backend over Nat options. -/
theorem backend_connect_eq_witness :
    (BackendModel.mk (Except.ok 1) fun n : Nat =>
      (Except.ok (n + 1) : Except String Nat)).connect = .ok 2 := by
  rw [(backend_connect_eq Nat Nat String
    (BackendModel.mk (Except.ok 1) fun n : Nat =>
      (Except.ok (n + 1) : Except String Nat))).2.2 1 rfl]

/-- Claim C7: for every fully-populated RequestHandler, awaiting it directly
(`IntoFuture`) yields the same result as calling `handle()`, and both build a
`Context` of exactly the stored owner, provider, and headers and return
`request.handle(ctx)`. -/
theorem requestHandler_await_eq_handle (R P Out E : Type)
    (hdl : R → Context P → Except E Out) (b : FullRequestHandler R P) :
    b.intoFuture hdl = b.handle hdl ∧
    b.handle hdl = hdl b.request ⟨b.owner, b.provider, b.headers⟩ :=
  ⟨rfl, rfl⟩

/-- Claim C6: the builder typestate — `handle`/await exists only with request,
owner, and provider all set; `provider` only fires on a provider-unset shape
and cannot fire twice; a set request cannot be replaced; and headers default
to the empty map. -/
theorem requestHandler_typestate (s s' : BuilderState) :
    (BuilderStep s .handle s' →
      s.requestSet = true ∧ s.ownerSet = true ∧ s.providerSet = true) ∧
    (BuilderStep s .setProvider s' → s.providerSet = false) ∧
    (BuilderStep s .setProvider s' → ∀ s'', ¬ BuilderStep s' .setProvider s'') ∧
    (BuilderStep s .setRequest s' → s.requestSet = false) ∧
    (∀ (R P : Type) (r : R) (p : P), ((PreHandler.mk r).provider p).headers = []) := by
  obtain ⟨rs, os, ps⟩ := s
  refine ⟨?_, ?_, ?_, ?_, ?_⟩
  · intro h
    cases h
    exact ⟨rfl, rfl, rfl⟩
  · intro h
    cases h with
    | provider _ hp => exact hp
  · intro h s'' h2
    cases h with
    | provider _ hp =>
      cases h2 with
      | provider _ hp2 => simp at hp2
  · intro h
    cases h with
    | request _ hr => exact hr
  · intro R P r p
    rfl

/-- Witness for C6 at concrete builder states and a concrete pre-handler. -/
theorem requestHandler_typestate_witness :
    (BuilderState.mk true true false).providerSet = false ∧
    ((PreHandler.mk (0 : Nat)).provider "p").headers = [] :=
  ⟨(requestHandler_typestate ⟨true, true, false⟩ ⟨true, true, true⟩).2.1
      (.provider ⟨true, true, false⟩ rfl),
   (requestHandler_typestate ⟨true, true, false⟩ ⟨true, true, true⟩).2.2.2.2
      Nat String 0 "p"⟩

theorem findTopicArm_eq_none {topic : String}
    {arms : List (String × (List Nat → Except String Unit))}
    (h : ∀ pa ∈ arms, strContainsSub topic pa.1 = false) :
    findTopicArm topic arms = none := by
  induction arms with
  | nil => rfl
  | cons hd tl ih =>
    unfold findTopicArm
    rw [h hd (List.mem_cons_self hd tl)]
    simp only [Bool.false_eq_true, if_false]
    exact ih fun pa hpa => h pa (List.mem_cons_of_mem hd hpa)

theorem findTopicArm_first_match :
    ∀ (arms : List (String × (List Nat → Except String Unit))) (topic : String)
      (i : Nat) (hi : i < arms.length),
      strContainsSub topic (arms.get ⟨i, hi⟩).1 = true →
      (∀ j (hj : j < i), strContainsSub topic (arms.get ⟨j, Nat.lt_trans hj hi⟩).1 = false) →
      findTopicArm topic arms = some (arms.get ⟨i, hi⟩).2 := by
  intro arms
  induction arms with
  | nil => intro topic i hi; exact absurd hi (by simp)
  | cons hd tl ih =>
    intro topic i hi hmatch hbefore
    cases i with
    | zero =>
      unfold findTopicArm
      simp only [List.get] at hmatch ⊢
      rw [hmatch]
      simp
    | succ k =>
      have hhd : strContainsSub topic hd.1 = false := hbefore 0 (Nat.succ_pos k)
      unfold findTopicArm
      rw [hhd]
      simp only [Bool.false_eq_true, if_false]
      have hk : k < tl.length := Nat.lt_of_succ_lt_succ hi
      have := ih topic k hk hmatch fun j hj => hbefore (j + 1) (Nat.succ_lt_succ hj)
      exact this

/-- Claim C5: the generated messaging dispatcher tests the topic against each
configured pattern by substring containment in declaration order, invokes the
first matching per-pattern processor on the payload bytes, and reports
"unhandled topic: <topic>" when no pattern matches; the per-pattern processor
chains `MESSAGE::handler(payload)?.provider(...).owner(...).await`. -/
theorem messaging_dispatch_spec
    (arms : List (String × (List Nat → Except String Unit))) (message : Message) :
    (message.topic = none →
      messagingHandle arms message = .error (.Other "message is missing topic")) ∧
    (∀ topic, message.topic = some topic →
      (∀ pa ∈ arms, strContainsSub topic pa.1 = false) →
      messagingHandle arms message = .error (.Other ("unhandled topic: " ++ topic))) ∧
    (∀ topic i (hi : i < arms.length), message.topic = some topic →
      strContainsSub topic (arms.get ⟨i, hi⟩).1 = true →
      (∀ j (hj : j < i), strContainsSub topic (arms.get ⟨j, Nat.lt_trans hj hi⟩).1 = false) →
      messagingHandle arms message = ((arms.get ⟨i, hi⟩).2 message.data).mapError .Other) ∧
    (∀ (R P Out : Type) (mk : List Nat → Except String R)
        (hdl : R → Context P → Except String Out) (prov : P) (owner : String)
        (payload : List Nat) (r : R),
      mk payload = .ok r →
      processor mk hdl prov owner payload =
        ((((PreHandler.mk r).provider prov).owner owner).handle hdl).map fun _ => ()) := by
  refine ⟨?_, ?_, ?_, ?_⟩
  · intro h
    unfold messagingHandle
    rw [h]
  · intro topic htop hnone
    unfold messagingHandle
    rw [htop]
    simp [findTopicArm_eq_none hnone]
  · intro topic i hi htop hmatch hbefore
    unfold messagingHandle
    rw [htop]
    simp [findTopicArm_first_match arms topic i hi hmatch hbefore]
  · intro R P Out mk hdl prov owner payload r hmk
    unfold processor
    rw [hmk]

/-- Witness for C5: the spec scenario — pattern `realtime-r9k.v1` matches topic
`realtime-r9k.v1.north` by substring containment and the processor runs. -/
theorem messaging_dispatch_spec_witness :
    messagingHandle [("realtime-r9k.v1", fun _ => .ok ())]
      ⟨some "realtime-r9k.v1.north", [7]⟩ =
      (((([("realtime-r9k.v1",
            fun (_ : List Nat) => (.ok () : Except String Unit))]).get
          ⟨0, by decide⟩).2 [7]).mapError .Other) :=
  (messaging_dispatch_spec [("realtime-r9k.v1", fun _ => .ok ())]
      ⟨some "realtime-r9k.v1.north", [7]⟩).2.2.1
    "realtime-r9k.v1.north" 0 (by decide) rfl (by decide)
    (fun j hj => absurd hj (Nat.not_lt_zero j))

theorem maybeFrom_error_directive {fp : GReq → String} {request : GReq} {e : GuestErr}
    (h : maybeFrom fp request = .error e) : ∃ msg, e = .directive msg := by
  unfold maybeFrom at h
  split at h
  · exact absurd h (by simp)
  · split at h
    · exact absurd h (by simp)
    · injection h with h
      exact ⟨_, h.symm⟩

/-- Claim C1: a failure of the KV cache backend — during the lookup before the
upstream request or during the write after it — does not fail the outbound
call: the caller-visible result with a failing backend equals the result with
a healthy backend that misses, and no cache error ever reaches the caller. -/
theorem guest_cache_failure_harmless (fp : GReq → String)
    (upstream : GReq → Except String ModelResponse) (request : GReq) (e e2 : KvErr) :
    ((guestHandle fp (fun _ => .error e) (fun _ _ _ => .error e2) upstream request).result =
      (guestHandle fp (fun _ => .ok none) (fun _ _ _ => .ok ()) upstream request).result) ∧
    (∀ (kvGet : String → Except KvErr (Option ModelResponse))
        (kvPut : String → ModelResponse → Nat → Except KvErr Unit) (ke : KvErr),
      (guestHandle fp kvGet kvPut upstream request).result ≠ .error (.cache ke)) := by
  constructor
  · unfold guestHandle
    cases hmf : maybeFrom fp request with
    | error e3 => rfl
    | ok mc =>
      cases mc with
      | none => rfl
      | some c => rfl
  · intro kvGet kvPut ke
    cases hmf : maybeFrom fp request with
    | error e3 =>
      obtain ⟨msg, rfl⟩ := maybeFrom_error_directive hmf
      simp [guestHandle, hmf]
    | ok mc =>
      cases hb : mc.bind (cacheGet kvGet) with
      | some hit => simp [guestHandle, hmf, hb]
      | none =>
        cases hup : upstream request with
        | error e3 => simp [guestHandle, hmf, hb, hup]
        | ok resp =>
          cases mc with
          | none => simp [guestHandle, hmf, hup]
          | some c => simp [guestHandle, hmf, hb, hup]

/-- Witness for C1: with a failing KV backend the caller sees the same result
as with a healthy, missing one. -/
theorem guest_cache_failure_harmless_witness :
    (guestHandle (fun _ => "fp1") (fun _ => .error (.backend "down"))
        (fun _ _ _ => .error (.backend "down")) (fun _ => .ok ⟨200, [], [5]⟩)
        ⟨"GET", "http://example.com/", [("cache-control", "max-age=60")], []⟩).result =
      (guestHandle (fun _ => "fp1") (fun _ => .ok none) (fun _ _ _ => .ok ())
        (fun _ => .ok ⟨200, [], [5]⟩)
        ⟨"GET", "http://example.com/", [("cache-control", "max-age=60")], []⟩).result :=
  (guest_cache_failure_harmless (fun _ => "fp1") (fun _ => .ok ⟨200, [], [5]⟩)
    ⟨"GET", "http://example.com/", [("cache-control", "max-age=60")], []⟩
    (.backend "down") (.backend "down")).1

/-- Claim C3: without a cache directive the cache is bypassed entirely — the
outcome is the plain upstream result, one fetch, no write, for every KV
backend behavior; with `cache-control: max-age=N` and a cache miss, a
successful upstream response comes back with an `etag` header equal to the
fingerprint and is written to the cache with TTL N. -/
theorem guest_cache_directive_semantics (fp : GReq → String)
    (kvGet : String → Except KvErr (Option ModelResponse))
    (kvPut : String → ModelResponse → Nat → Except KvErr Unit)
    (upstream : GReq → Except String ModelResponse) (request : GReq) :
    (lookupHeader "cache-control" request.headers = none →
      guestHandle fp kvGet kvPut upstream request =
        match upstream request with
        | .error e => ⟨.error (.proxy e), 1, []⟩
        | .ok r => ⟨.ok r, 1, []⟩) ∧
    (∀ v n r, lookupHeader "cache-control" request.headers = some v →
      parseMaxAge v = some n →
      kvGet (fp request) = .ok none →
      upstream request = .ok r →
      guestHandle fp kvGet kvPut upstream request =
        ⟨.ok { r with headers := insertHeader "etag" (fp request) r.headers }, 1,
          [(fp request, { r with headers := insertHeader "etag" (fp request) r.headers }, n)]⟩) := by
  constructor
  · intro hl
    have hmf : maybeFrom fp request = .ok none := by
      simp [maybeFrom, hl]
    cases hup : upstream request with
    | error e => simp [guestHandle, hmf, hup]
    | ok r => simp [guestHandle, hmf, hup]
  · intro v n r hl hparse hkv hup
    have hmf : maybeFrom fp request = .ok (some ⟨fp request, n⟩) := by
      simp [maybeFrom, hl, hparse]
    have hget : cacheGet kvGet ⟨fp request, n⟩ = none := by
      simp [cacheGet, hkv]
    simp [guestHandle, hmf, hget, hup]

/-- Witness for C3: the directive branch at a concrete request with
`cache-control: max-age=60` and a missing cache entry. -/
theorem guest_cache_directive_semantics_witness :
    guestHandle (fun _ => "fp1") (fun _ => .ok none) (fun _ _ _ => .ok ())
        (fun _ => .ok ⟨200, [], [5]⟩)
        ⟨"GET", "http://example.com/", [("cache-control", "max-age=60")], []⟩ =
      ⟨.ok ⟨200, [("etag", "fp1")], [5]⟩, 1, [("fp1", ⟨200, [("etag", "fp1")], [5]⟩, 60)]⟩ :=
  (guest_cache_directive_semantics (fun _ => "fp1") (fun _ => .ok none)
      (fun _ _ _ => .ok ()) (fun _ => .ok ⟨200, [], [5]⟩)
      ⟨"GET", "http://example.com/", [("cache-control", "max-age=60")], []⟩).2
    "max-age=60" 60 ⟨200, [], [5]⟩ rfl (by decide) rfl rfl

end Yetti
